import Mathlib

/-!
Verification of the Kitefew simulation/interaction engine
(`src/webapp/src/logic/GameEngine.ts`, `Entities.ts`, `GameTypes.ts`).

The embedding works over exact rationals (`ℚ`): every branching comparison in
the source that involves `Math.sqrt`/`Math.hypot` is embedded by comparing
squared distances against squared (positive) thresholds, which is equivalent
because `Real.sqrt` is strictly monotone on nonnegative inputs and all
thresholds in the source are positive.  Timestamps are integers (milliseconds,
as produced by `Date.now()`).

Rendering (`draw*`, canvas calls), particles/sparkles and the random spawner
are visual or randomized collaborators; their effect on the scoring state is
modelled adversarially in the reachability relation `Reach` below (arbitrary
fruit lists, trails and hand positions may be installed between frames), so
every invariant proved over `Reach` holds in particular for the states the
real engine can produce.
-/

namespace Kitefew

/-! ### Simulation constants (`GameTypes.ts`, `CONFIG`) -/

/-- `CONFIG.gravity = 0.18`. -/
def gravity : ℚ := 9 / 50

/-- `CONFIG.hitboxPadding = 15`. -/
def hitboxPadding : ℚ := 15

/-- `CONFIG.fruitRadius = 38`. -/
def fruitRadius : ℚ := 38

/-- `CONFIG.comboWindowMs = 500`. -/
def comboWindowMs : ℤ := 500

/-- `CONFIG.comboBonuses.double = 5`. -/
def comboBonusDouble : ℤ := 5

/-- `CONFIG.comboBonuses.triple = 15`. -/
def comboBonusTriple : ℤ := 15

/-- `CONFIG.comboBonuses.quad = 30`. -/
def comboBonusQuad : ℤ := 30

/-! ### Target entity (`Entities.ts`, class `Fruit`) -/

/-- `FruitType` from `GameTypes.ts`. -/
inductive FruitType
  | apple
  | orange
  | watermelon
  | kiwi
  | lemon
  | bomb
  | heart
deriving DecidableEq, Repr

/-- The deterministic state of a `Fruit` (`Entities.ts:89-121`).  The randomized
constructor arguments become arbitrary field values here; `spawnTime` is unused
by the engine logic and omitted. -/
structure Fruit where
  x : ℚ
  y : ℚ
  vx : ℚ
  vy : ℚ
  rotation : ℚ
  rotSpeed : ℚ
  radius : ℚ
  pulseTime : ℚ
  type : FruitType
  sliced : Bool
  active : Bool
  isDoubleFruit : Bool
deriving DecidableEq, Repr

/-- `Fruit.update(fieldHeight, dt)` (`Entities.ts:135-145`): position advances
with the pre-step velocity, then `vy += gravity*dt`; the deactivation test
reads the already-updated `y` and `vy`. -/
def Fruit.update (f : Fruit) (fieldHeight : ℚ) (dt : ℚ) : Fruit :=
  let x := f.x + f.vx * dt
  let y := f.y + f.vy * dt
  let vy := f.vy + gravity * dt
  let rotation := f.rotation + f.rotSpeed * dt
  let pulseTime := f.pulseTime + (1 / 10) * dt
  let active := if y > fieldHeight + 100 ∧ vy > 0 then false else f.active
  { f with x := x, y := y, vy := vy, rotation := rotation,
           pulseTime := pulseTime, active := active }

/-! ### Engine data model (`GameEngine.ts`) -/

/-- `Point` from `GameTypes.ts`. -/
structure Point where
  x : ℚ
  y : ℚ
deriving DecidableEq, Repr

/-- `HandData` from `GameTypes.ts`. -/
structure HandData where
  x : ℚ
  y : ℚ
  visible : Bool
deriving DecidableEq, Repr

/-- `BladePoint` from `GameTypes.ts` (trail sample with a ms timestamp). -/
structure BladePoint where
  x : ℚ
  y : ℚ
  time : ℤ
deriving DecidableEq, Repr

/-- The synchronous callbacks the engine invokes
(`onScoreUpdate`, `onLivesUpdate`, `onStreakUpdate`, `onGameOver`, `onSplash`);
the splash text/coordinates carry no scoring information and are elided. -/
inductive GEvent
  | scoreUpdate (score : ℤ)
  | livesUpdate (lives : ℤ)
  | streakUpdate (streak mult : ℤ)
  | gameOverEv (finalScore : ℤ)
  | splashEv
deriving DecidableEq, Repr

/-- The scoring-relevant mutable state of `GameEngine`
(`GameEngine.ts:439-475`).  Particles/sparkles and the stroke renderer are
purely visual and omitted; the spawn timer only feeds the (random) spawner. -/
structure Engine where
  width : ℚ
  height : ℚ
  score : ℤ
  lives : ℤ
  maxLives : ℤ
  gameActive : Bool
  fruits : List Fruit
  bladeTrail : List BladePoint
  rawHand : HandData
  smoothedHand : Point
  streak : ℤ
  multiplier : ℤ
  lastSliceTime : ℤ
  comboCount : ℤ
deriving DecidableEq, Repr

/-- The field initializers of `GameEngine` (its constructor state). -/
def Engine.init : Engine :=
  { width := 0, height := 0, score := 0, lives := 3, maxLives := 5,
    gameActive := false, fruits := [], bladeTrail := [],
    rawHand := { x := -100, y := -100, visible := false },
    smoothedHand := { x := -100, y := -100 },
    streak := 0, multiplier := 1, lastSliceTime := 0, comboCount := 0 }

/-- `calculateMultiplier` (`GameEngine.ts:543-550`): descending scan of
`CONFIG.streakThresholds = [(5,2),(10,3),(20,5)]`. -/
def calculateMultiplier (streak : ℤ) : ℤ :=
  if streak ≥ 20 then 5
  else if streak ≥ 10 then 3
  else if streak ≥ 5 then 2
  else 1

/-- `startGame` (`GameEngine.ts:496-513`).  The spawn timer reset is outside
the model; note that `lastSliceTime` is NOT reset by the source. -/
def Engine.startGame (e : Engine) : Engine × List GEvent :=
  let e' := { e with score := 0, lives := 3, streak := 0, multiplier := 1,
                     comboCount := 0, fruits := [], bladeTrail := [],
                     gameActive := true,
                     smoothedHand := { x := e.width / 2, y := e.height / 2 } }
  (e', [GEvent.scoreUpdate 0, GEvent.livesUpdate 3, GEvent.streakUpdate 0 1])

/-- `breakStreak` (`GameEngine.ts:753-760`): a no-op (and no callback) unless
`streak > 0`. -/
def Engine.breakStreak (e : Engine) : Engine × List GEvent :=
  if e.streak > 0 then
    ({ e with streak := 0, multiplier := 1, comboCount := 0 },
     [GEvent.streakUpdate 0 1])
  else (e, [])

/-- `loseLife` (`GameEngine.ts:780-786`): unconditional decrement, callback,
then terminal transition when `lives <= 0`. -/
def Engine.loseLife (e : Engine) : Engine × List GEvent :=
  let l := e.lives - 1
  if l ≤ 0 then
    ({ e with lives := l, gameActive := false },
     [GEvent.livesUpdate l, GEvent.gameOverEv e.score])
  else
    ({ e with lives := l }, [GEvent.livesUpdate l])

/-- `handleSlice(f)` (`GameEngine.ts:681-751`).  Returns the updated engine,
the updated fruit (marked sliced and inactive) and the emitted callbacks.
The source reads the pre-slice `multiplier` for the base points, then updates
`streak` and recomputes the multiplier, then adds the points. -/
def Engine.handleSlice (e : Engine) (now : ℤ) (f : Fruit) :
    Engine × Fruit × List GEvent :=
  let f' := { f with sliced := true, active := false }
  if f.type = FruitType.bomb then
    ({ e with gameActive := false }, f', [GEvent.gameOverEv e.score])
  else if f.type = FruitType.heart then
    if e.lives < e.maxLives then
      ({ e with lives := e.lives + 1 }, f',
       [GEvent.livesUpdate (e.lives + 1), GEvent.splashEv])
    else
      ({ e with score := e.score + 5 * e.multiplier }, f', [GEvent.splashEv])
  else
    let combo := if now - e.lastSliceTime < comboWindowMs then e.comboCount + 1 else 1
    let basePoints := 1 * e.multiplier
    let pairPoints := if f.isDoubleFruit then basePoints + 2 else basePoints
    let points :=
      if combo = 2 then pairPoints + comboBonusDouble
      else if combo = 3 then pairPoints + comboBonusTriple
      else if combo ≥ 4 then pairPoints + comboBonusQuad
      else pairPoints
    let newStreak := e.streak + 1
    let newMult := calculateMultiplier newStreak
    let newScore := e.score + points
    ({ e with comboCount := combo, lastSliceTime := now, streak := newStreak,
              multiplier := newMult, score := newScore },
     f',
     [GEvent.streakUpdate newStreak newMult, GEvent.scoreUpdate newScore,
      GEvent.splashEv])

/-! ### Collision detection (`GameEngine.ts:528-541, 637-677`) -/

/-- Squared form of `distToSegment` (`GameEngine.ts:528-541`): same projection
and clamping, returning the squared distance instead of the distance. -/
def distToSegmentSq (px py vx vy wx wy : ℚ) : ℚ :=
  let l2 := (wx - vx) ^ 2 + (wy - vy) ^ 2
  if l2 = 0 then (px - vx) ^ 2 + (py - vy) ^ 2
  else
    let t := ((px - vx) * (wx - vx) + (py - vy) * (wy - vy)) / l2
    let t' := max 0 (min 1 t)
    let projX := vx + t' * (wx - vx)
    let projY := vy + t' * (wy - vy)
    (px - projX) ^ 2 + (py - projY) ^ 2

/-- Embeds `sqrt sq < r` for `sq ≥ 0`: true iff `r` is positive and
`sq < r^2`. -/
def distLtSq (sq r : ℚ) : Bool :=
  decide (0 < r ∧ sq < r ^ 2)

/-- `bladeTrail[bladeTrail.length - (k+1)]`, which is `undefined` (here
`none`) when the trail has fewer than `k+1` points. -/
def prevPoint (trail : List BladePoint) (k : Nat) : Option BladePoint :=
  if k + 1 ≤ trail.length then trail.get? (trail.length - (k + 1)) else none

/-- Squared `moveSpeed` (`GameEngine.ts:670-671`): displacement from the
second-to-last trail point to the current smoothed hand; `0` when that trail
point does not exist. -/
def moveSpeedSq (hand : Point) (trail : List BladePoint) : ℚ :=
  match prevPoint trail 1 with
  | some p => (hand.x - p.x) ^ 2 + (hand.y - p.y) ^ 2
  | none => 0

/-- The hit test assembled in `updateFruits` (`GameEngine.ts:639-667`):
current-tip radius test, then up to two trailing segments against tightened
thresholds (`0.85`, `0.7` of the hit radius). -/
def hitDetected (hand : Point) (trail : List BladePoint) (f : Fruit) : Bool :=
  let hitRadius := f.radius + hitboxPadding
  let tipDistSq := (hand.x - f.x) ^ 2 + (hand.y - f.y) ^ 2
  if distLtSq tipDistSq hitRadius then true
  else
    match prevPoint trail 1 with
    | none => false
    | some p1 =>
      let seg1 := distToSegmentSq f.x f.y hand.x hand.y p1.x p1.y
      if distLtSq seg1 (hitRadius * (17 / 20)) then true
      else
        match prevPoint trail 2 with
        | none => false
        | some p2 =>
          distLtSq (distToSegmentSq f.x f.y p1.x p1.y p2.x p2.y)
            (hitRadius * (7 / 10))

/-- The guard of the slice branch in `updateFruits` (`GameEngine.ts:638-674`):
not yet sliced, active, pointer visible, geometric hit, and the speed gate
`moveSpeed > 2` (squared: `> 4`).  Note this guard does not test
`gameActive`. -/
def sliceCond (e : Engine) (f : Fruit) : Prop :=
  f.sliced = false ∧ f.active = true ∧ e.rawHand.visible = true ∧
    hitDetected e.smoothedHand e.bladeTrail f = true ∧
    moveSpeedSq e.smoothedHand e.bladeTrail > 4

instance (e : Engine) (f : Fruit) : Decidable (sliceCond e f) := by
  unfold sliceCond; infer_instance

/-- The guard of the missed-fruit penalty (`GameEngine.ts:629`): un-sliced,
neither bomb nor heart, and the game still active. -/
def missCond (e : Engine) (f : Fruit) : Prop :=
  f.sliced = false ∧ f.type ≠ FruitType.bomb ∧ f.type ≠ FruitType.heart ∧
    e.gameActive = true

instance (e : Engine) (f : Fruit) : Decidable (missCond e f) := by
  unfold missCond; infer_instance

/-! ### The per-frame fruit pass (`updateFruits`, `GameEngine.ts:621-679`) -/

/-- The body of the `for (i = length-1; i >= 0; i--)` loop, applied to the
fruit list in reverse (head = last array element, processed first).  Returns
the threaded engine state, the surviving fruits (still reversed) and the
emitted events.  A fruit that goes inactive is spliced out (with the miss
penalty when `missCond` holds); a sliced fruit stays in the list until the
next frame. -/
def processFruitsRev (now : ℤ) (dt : ℚ) :
    Engine → List Fruit → Engine × List Fruit × List GEvent
  | e, [] => (e, [], [])
  | e, f :: rest =>
    let f1 := f.update e.height dt
    if f1.active = false then
      if missCond e f1 then
        let r1 := e.breakStreak
        let r2 := r1.1.loseLife
        let r3 := processFruitsRev now dt r2.1 rest
        (r3.1, r3.2.1, r1.2 ++ r2.2 ++ r3.2.2)
      else
        processFruitsRev now dt e rest
    else
      if sliceCond e f1 then
        let r1 := e.handleSlice now f1
        let r2 := processFruitsRev now dt r1.1 rest
        (r2.1, r1.2.1 :: r2.2.1, r1.2.2 ++ r2.2.2)
      else
        let r2 := processFruitsRev now dt e rest
        (r2.1, f1 :: r2.2.1, r2.2.2)

/-- `updateFruits` (`GameEngine.ts:621-679`), restricted to its simulation
effect (drawing elided). -/
def Engine.updateFruits (e : Engine) (now : ℤ) (dt : ℚ) : Engine × List GEvent :=
  let r := processFruitsRev now dt e e.fruits.reverse
  ({ r.1 with fruits := r.2.1.reverse }, r.2.2)

/-- One frame of the loop as far as slicing is concerned: the per-frame
effects of input smoothing and trail maintenance are modelled adversarially
(the frame carries the smoothed hand, raw-hand data and trail to use), then
`updateFruits` runs.  Used to express multi-frame temporal properties. -/
def runFrames (e : Engine) : List (Point × HandData × List BladePoint × ℤ × ℚ) → Engine
  | [] => e
  | (p, hd, tr, now, dt) :: rest =>
    runFrames
      (({ e with smoothedHand := p, rawHand := hd, bladeTrail := tr
        }).updateFruits now dt).1 rest

/-! ### One Euro filter (`GameEngine.ts:387-437`) -/

/-- The exact rational value of the IEEE-754 double `Math.PI`. -/
def mathPI : ℚ := 884279719003555 / 281474976710656

/-- `alpha(cutoff, dt)` (`GameEngine.ts:402-405`). -/
def euroAlpha (cutoff dt : ℚ) : ℚ :=
  1 / (1 + (1 / (2 * mathPI * cutoff)) / dt)

/-- State of `OneEuroFilter` (`GameEngine.ts:387-400`); `inited` models the
source field `initialized`. -/
structure OneEuroFilter where
  minCutoff : ℚ
  beta : ℚ
  dCutoff : ℚ
  xPrev : ℚ
  dxPrev : ℚ
  tPrev : ℚ
  inited : Bool
deriving DecidableEq, Repr

/-- The `OneEuroFilter` constructor. -/
def OneEuroFilter.mk0 (minCutoff beta dCutoff : ℚ) : OneEuroFilter :=
  { minCutoff := minCutoff, beta := beta, dCutoff := dCutoff,
    xPrev := 0, dxPrev := 0, tPrev := 0, inited := false }

/-- `filter(x, timestamp)` (`GameEngine.ts:407-432`): first-call passthrough,
then `dt = max((t - tPrev)/1000, 0.001)`, derivative estimate, derivative
smoothing, adaptive cutoff, and the adaptive low-pass. -/
def OneEuroFilter.filter (s : OneEuroFilter) (x t : ℚ) : OneEuroFilter × ℚ :=
  if s.inited = false then
    ({ s with xPrev := x, dxPrev := 0, tPrev := t, inited := true }, x)
  else
    let dt := max ((t - s.tPrev) / 1000) (1 / 1000)
    let dx := (x - s.xPrev) / dt
    let a := euroAlpha s.dCutoff dt
    let edx := a * dx + (1 - a) * s.dxPrev
    let cutoff := s.minCutoff + s.beta * |edx|
    let b := euroAlpha cutoff dt
    let result := b * x + (1 - b) * s.xPrev
    ({ s with xPrev := result, dxPrev := edx, tPrev := t }, result)

/-- All denominators of `euroAlpha cutoff dt` are positive (so no division by
zero and, in float terms, no NaN): the tau denominator `2π·cutoff`, the
division by `dt`, and the outer denominator `1 + tau/dt`. -/
def alphaDenomsPos (cutoff dt : ℚ) : Prop :=
  0 < 2 * mathPI * cutoff ∧ 0 < dt ∧ 0 < 1 + (1 / (2 * mathPI * cutoff)) / dt

instance (cutoff dt : ℚ) : Decidable (alphaDenomsPos cutoff dt) := by
  unfold alphaDenomsPos; infer_instance

/-- The clamped time delta `dt = max((t - tPrev)/1000, 0.001)`
(`GameEngine.ts:416`). -/
def clampDt (s : OneEuroFilter) (t : ℚ) : ℚ :=
  max ((t - s.tPrev) / 1000) (1 / 1000)

/-- The smoothed derivative estimate `edx` (`GameEngine.ts:420-421`). -/
def edxOf (s : OneEuroFilter) (x t : ℚ) : ℚ :=
  euroAlpha s.dCutoff (clampDt s t) * ((x - s.xPrev) / clampDt s t) +
    (1 - euroAlpha s.dCutoff (clampDt s t)) * s.dxPrev

/-- The adaptive cutoff `minCutoff + beta * |edx|` (`GameEngine.ts:425`). -/
def cutoffOf (s : OneEuroFilter) (x t : ℚ) : ℚ :=
  s.minCutoff + s.beta * |edxOf s x t|

/-- Safety of a single `filter` call: the clamped `dt` is at least one
millisecond and every denominator of both low-pass applications is
positive.  Over `ℚ` (and likewise over IEEE floats with these guards) this
rules out division by zero, hence NaN. -/
def StepSafe (s : OneEuroFilter) (x t : ℚ) : Prop :=
  (1 : ℚ) / 1000 ≤ clampDt s t ∧ alphaDenomsPos s.dCutoff (clampDt s t) ∧
    alphaDenomsPos (cutoffOf s x t) (clampDt s t)

instance (s : OneEuroFilter) (x t : ℚ) : Decidable (StepSafe s x t) := by
  unfold StepSafe; infer_instance

/-- Safety of a whole sequence of `filter` calls. -/
def RunSafe (s : OneEuroFilter) : List (ℚ × ℚ) → Prop
  | [] => True
  | (x, t) :: rest => StepSafe s x t ∧ RunSafe (s.filter x t).1 rest

/-! ### Reachable states and the scoring invariant -/

/-- States reachable from the engine constructor through the engine's
operations.  Input smoothing, trail maintenance, the random spawner and
external pushes (`updateHand`, `resize`) are modelled adversarially: arbitrary
values may be installed, which only enlarges the reachable set. -/
inductive Reach : Engine → Prop
  | init : Reach Engine.init
  | start (e : Engine) : Reach e → Reach e.startGame.1
  | frame (e : Engine) (now : ℤ) (dt : ℚ) :
      Reach e → Reach (e.updateFruits now dt).1
  | setHand (e : Engine) (h : HandData) :
      Reach e → Reach { e with rawHand := h }
  | setSmoothed (e : Engine) (p : Point) :
      Reach e → Reach { e with smoothedHand := p }
  | setTrail (e : Engine) (tr : List BladePoint) :
      Reach e → Reach { e with bladeTrail := tr }
  | setFruits (e : Engine) (fs : List Fruit) :
      Reach e → Reach { e with fruits := fs }
  | resize (e : Engine) (w h : ℚ) :
      Reach e → Reach { e with width := w, height := h }

/-- The scoring invariant: lives bounded in `[0, maxLives]`, `maxLives` is the
constant 5, an active session has at least one life, a zero streak forces the
neutral multiplier and combo, and the streak is nonnegative. -/
def Inv (e : Engine) : Prop :=
  0 ≤ e.lives ∧ e.lives ≤ e.maxLives ∧ e.maxLives = 5 ∧
    (e.gameActive = true → 1 ≤ e.lives) ∧
    (e.streak = 0 → e.multiplier = 1 ∧ e.comboCount = 0) ∧
    0 ≤ e.streak

instance (e : Engine) : Decidable (Inv e) := by
  unfold Inv; infer_instance

lemma inv_init : Inv Engine.init := by decide

lemma inv_startGame (e : Engine) (h : Inv e) : Inv e.startGame.1 := by
  obtain ⟨_, _, hmax, _, _, _⟩ := h
  unfold Inv Engine.startGame
  refine ⟨by norm_num, ?_, by simpa using hmax, by norm_num, by norm_num, by norm_num⟩
  simp [hmax]

lemma breakStreak_eq (e : Engine) :
    e.breakStreak =
      if e.streak > 0 then
        ({ e with streak := 0, multiplier := 1, comboCount := 0 },
         [GEvent.streakUpdate 0 1])
      else (e, []) := rfl

lemma loseLife_eq (e : Engine) :
    e.loseLife =
      if e.lives - 1 ≤ 0 then
        ({ e with lives := e.lives - 1, gameActive := false },
         [GEvent.livesUpdate (e.lives - 1), GEvent.gameOverEv e.score])
      else
        ({ e with lives := e.lives - 1 },
         [GEvent.livesUpdate (e.lives - 1)]) := rfl

lemma breakStreak_fields (e : Engine) :
    e.breakStreak.1.lives = e.lives ∧ e.breakStreak.1.maxLives = e.maxLives ∧
      e.breakStreak.1.gameActive = e.gameActive ∧ e.breakStreak.1.score = e.score := by
  rw [breakStreak_eq]
  split <;> simp

lemma breakStreak_visual (e : Engine) :
    e.breakStreak.1.smoothedHand = e.smoothedHand ∧
      e.breakStreak.1.bladeTrail = e.bladeTrail ∧
      e.breakStreak.1.rawHand = e.rawHand ∧
      e.breakStreak.1.height = e.height := by
  rw [breakStreak_eq]
  split <;> simp

lemma loseLife_visual (e : Engine) :
    e.loseLife.1.smoothedHand = e.smoothedHand ∧
      e.loseLife.1.bladeTrail = e.bladeTrail ∧
      e.loseLife.1.rawHand = e.rawHand ∧
      e.loseLife.1.height = e.height := by
  rw [loseLife_eq]
  split <;> simp

/-- With the invariant, `breakStreak` always leaves the streak state fully
reset (when the streak is already 0 the reset is the identity by `Inv`). -/
lemma breakStreak_resets (e : Engine) (h : Inv e) :
    e.breakStreak.1.streak = 0 ∧ e.breakStreak.1.multiplier = 1 ∧
      e.breakStreak.1.comboCount = 0 := by
  obtain ⟨-, -, -, -, hz, hs⟩ := h
  rw [breakStreak_eq]
  split
  · simp
  · rename_i hgt
    have h0 : e.streak = 0 := by omega
    simpa [h0] using hz h0

lemma inv_breakStreak (e : Engine) (h : Inv e) : Inv e.breakStreak.1 := by
  obtain ⟨hs, hmu, hc⟩ := breakStreak_resets e h
  obtain ⟨h1, h2, h3, h4, -, -⟩ := h
  obtain ⟨hl, hm, hg, -⟩ := breakStreak_fields e
  exact ⟨hl ▸ h1, by rw [hl, hm]; exact h2, hm ▸ h3,
    fun hga => hl ▸ h4 (hg ▸ hga), fun _ => ⟨hmu, hc⟩, by omega⟩

lemma loseLife_fields (e : Engine) :
    e.loseLife.1.lives = e.lives - 1 ∧ e.loseLife.1.maxLives = e.maxLives ∧
      e.loseLife.1.streak = e.streak ∧ e.loseLife.1.multiplier = e.multiplier ∧
      e.loseLife.1.comboCount = e.comboCount ∧ e.loseLife.1.score = e.score := by
  rw [loseLife_eq]
  split <;> simp

/-- `loseLife` under an active session: the invariant survives (lives stay
nonnegative because an active session has at least one life, and the terminal
transition fires exactly when they hit 0). -/
lemma inv_loseLife (e : Engine) (h : Inv e) (ha : e.gameActive = true) :
    Inv e.loseLife.1 := by
  obtain ⟨h1, h2, h3, h4, h5, h6⟩ := h
  have hl1 : 1 ≤ e.lives := h4 ha
  unfold Inv
  rw [loseLife_eq]
  split
  · exact ⟨by simp; omega, by simp; omega, by simpa using h3,
      by simp, by simpa using h5, by simpa using h6⟩
  · rename_i hgt
    exact ⟨by simp; omega, by simp; omega, by simpa using h3,
      fun _ => by simp; omega, by simpa using h5, by simpa using h6⟩

lemma handleSlice_bomb (e : Engine) (now : ℤ) (f : Fruit)
    (hf : f.type = FruitType.bomb) :
    e.handleSlice now f =
      ({ e with gameActive := false }, { f with sliced := true, active := false },
       [GEvent.gameOverEv e.score]) := by
  unfold Engine.handleSlice
  rw [if_pos hf]

lemma handleSlice_heart (e : Engine) (now : ℤ) (f : Fruit)
    (hf : f.type = FruitType.heart) :
    e.handleSlice now f =
      if e.lives < e.maxLives then
        ({ e with lives := e.lives + 1 }, { f with sliced := true, active := false },
         [GEvent.livesUpdate (e.lives + 1), GEvent.splashEv])
      else
        ({ e with score := e.score + 5 * e.multiplier },
         { f with sliced := true, active := false }, [GEvent.splashEv]) := by
  unfold Engine.handleSlice
  rw [if_neg (by simp [hf]), if_pos hf]

/-- The number of points awarded for a neutral-good slice
(`GameEngine.ts:718-741`), as a function of the pre-slice multiplier, the
new combo count and the paired flag. -/
def slicePoints (mult combo : ℤ) (isDouble : Bool) : ℤ :=
  let pairPoints := if isDouble then 1 * mult + 2 else 1 * mult
  if combo = 2 then pairPoints + comboBonusDouble
  else if combo = 3 then pairPoints + comboBonusTriple
  else if combo ≥ 4 then pairPoints + comboBonusQuad
  else pairPoints

/-- The new combo count for a neutral-good slice (`GameEngine.ts:710-716`). -/
def newCombo (comboCount lastSliceTime now : ℤ) : ℤ :=
  if now - lastSliceTime < comboWindowMs then comboCount + 1 else 1

lemma handleSlice_regular (e : Engine) (now : ℤ) (f : Fruit)
    (hb : f.type ≠ FruitType.bomb) (hh : f.type ≠ FruitType.heart) :
    e.handleSlice now f =
      ({ e with comboCount := newCombo e.comboCount e.lastSliceTime now,
                lastSliceTime := now, streak := e.streak + 1,
                multiplier := calculateMultiplier (e.streak + 1),
                score := e.score + slicePoints e.multiplier
                  (newCombo e.comboCount e.lastSliceTime now) f.isDoubleFruit },
       { f with sliced := true, active := false },
       [GEvent.streakUpdate (e.streak + 1) (calculateMultiplier (e.streak + 1)),
        GEvent.scoreUpdate (e.score + slicePoints e.multiplier
          (newCombo e.comboCount e.lastSliceTime now) f.isDoubleFruit),
        GEvent.splashEv]) := by
  unfold Engine.handleSlice slicePoints newCombo
  rw [if_neg hb, if_neg hh]

lemma inv_handleSlice (e : Engine) (now : ℤ) (f : Fruit) (h : Inv e) :
    Inv (e.handleSlice now f).1 := by
  obtain ⟨h1, h2, h3, h4, h5, h6⟩ := h
  by_cases hb : f.type = FruitType.bomb
  · rw [handleSlice_bomb e now f hb]
    exact ⟨h1, h2, h3, by simp, h5, h6⟩
  · by_cases hh : f.type = FruitType.heart
    · rw [handleSlice_heart e now f hh]
      split
      · rename_i hlt
        exact ⟨by simp; omega, by simp; omega, by simpa using h3,
          fun _ => by simp; omega, by simpa using h5, by simpa using h6⟩
      · exact ⟨by simpa using h1, by simpa using h2, by simpa using h3,
          fun hga => by simpa using h4 (by simpa using hga), by simpa using h5,
          by simpa using h6⟩
    · rw [handleSlice_regular e now f hb hh]
      refine ⟨by simpa using h1, by simpa using h2, by simpa using h3,
        fun hga => by simpa using h4 (by simpa using hga), ?_, by simp; omega⟩
      intro hstreak
      simp only at hstreak
      omega

lemma processFruitsRev_nil (now : ℤ) (dt : ℚ) (e : Engine) :
    processFruitsRev now dt e [] = (e, [], []) := rfl

lemma processFruitsRev_cons (now : ℤ) (dt : ℚ) (e : Engine) (f : Fruit)
    (rest : List Fruit) :
    processFruitsRev now dt e (f :: rest) =
      if (f.update e.height dt).active = false then
        if missCond e (f.update e.height dt) then
          ((processFruitsRev now dt e.breakStreak.1.loseLife.1 rest).1,
           (processFruitsRev now dt e.breakStreak.1.loseLife.1 rest).2.1,
           e.breakStreak.2 ++ e.breakStreak.1.loseLife.2 ++
             (processFruitsRev now dt e.breakStreak.1.loseLife.1 rest).2.2)
        else processFruitsRev now dt e rest
      else
        if sliceCond e (f.update e.height dt) then
          ((processFruitsRev now dt (e.handleSlice now (f.update e.height dt)).1 rest).1,
           (e.handleSlice now (f.update e.height dt)).2.1 ::
             (processFruitsRev now dt (e.handleSlice now (f.update e.height dt)).1 rest).2.1,
           (e.handleSlice now (f.update e.height dt)).2.2 ++
             (processFruitsRev now dt (e.handleSlice now (f.update e.height dt)).1 rest).2.2)
        else
          ((processFruitsRev now dt e rest).1,
           f.update e.height dt :: (processFruitsRev now dt e rest).2.1,
           (processFruitsRev now dt e rest).2.2) := rfl

lemma inv_processFruitsRev (now : ℤ) (dt : ℚ) (l : List Fruit) :
    ∀ e : Engine, Inv e → Inv (processFruitsRev now dt e l).1 := by
  induction l with
  | nil => intro e h; simpa [processFruitsRev_nil] using h
  | cons f rest ih =>
    intro e h
    rw [processFruitsRev_cons]
    split
    · split
      · rename_i hmiss
        have ha : e.gameActive = true := hmiss.2.2.2
        have hb : e.breakStreak.1.gameActive = true := by
          rw [(breakStreak_fields e).2.2.1]; exact ha
        exact ih _ (inv_loseLife _ (inv_breakStreak e h) hb)
      · exact ih _ h
    · split
      · exact ih _ (inv_handleSlice e now _ h)
      · exact ih _ h

lemma inv_updateFruits (e : Engine) (now : ℤ) (dt : ℚ) (h : Inv e) :
    Inv (e.updateFruits now dt).1 := by
  unfold Engine.updateFruits
  have := inv_processFruitsRev now dt e.fruits.reverse e h
  unfold Inv at this ⊢
  simpa using this

/-- Every reachable engine state satisfies the scoring invariant. -/
lemma reach_inv (e : Engine) (h : Reach e) : Inv e := by
  induction h with
  | init => exact inv_init
  | start e _ ih => exact inv_startGame e ih
  | frame e now dt _ ih => exact inv_updateFruits e now dt ih
  | setHand e hd _ ih => unfold Inv at ih ⊢; simpa using ih
  | setSmoothed e p _ ih => unfold Inv at ih ⊢; simpa using ih
  | setTrail e tr _ ih => unfold Inv at ih ⊢; simpa using ih
  | setFruits e fs _ ih => unfold Inv at ih ⊢; simpa using ih
  | resize e w hh _ ih => unfold Inv at ih ⊢; simpa using ih

/-! ### Further helper lemmas -/

lemma updateFruits_eq (e : Engine) (now : ℤ) (dt : ℚ) :
    e.updateFruits now dt =
      ({ (processFruitsRev now dt e e.fruits.reverse).1 with
         fruits := (processFruitsRev now dt e e.fruits.reverse).2.1.reverse },
       (processFruitsRev now dt e e.fruits.reverse).2.2) := rfl

lemma update_sliced (f : Fruit) (h dt : ℚ) : (f.update h dt).sliced = f.sliced := rfl

lemma update_type (f : Fruit) (h dt : ℚ) : (f.update h dt).type = f.type := rfl

lemma newCombo_zero (lastSliceTime now : ℤ) : newCombo 0 lastSliceTime now = 1 := by
  unfold newCombo
  split <;> norm_num

lemma handleSlice_regular_fields (e : Engine) (now : ℤ) (f : Fruit)
    (hb : f.type ≠ FruitType.bomb) (hh : f.type ≠ FruitType.heart) :
    (e.handleSlice now f).1.comboCount = newCombo e.comboCount e.lastSliceTime now ∧
      (e.handleSlice now f).1.lastSliceTime = now ∧
      (e.handleSlice now f).1.streak = e.streak + 1 ∧
      (e.handleSlice now f).1.multiplier = calculateMultiplier (e.streak + 1) ∧
      (e.handleSlice now f).1.score = e.score + slicePoints e.multiplier
        (newCombo e.comboCount e.lastSliceTime now) f.isDoubleFruit := by
  rw [handleSlice_regular e now f hb hh]
  exact ⟨rfl, rfl, rfl, rfl, rfl⟩

lemma filter_params (s : OneEuroFilter) (x t : ℚ) :
    (s.filter x t).1.minCutoff = s.minCutoff ∧ (s.filter x t).1.beta = s.beta ∧
      (s.filter x t).1.dCutoff = s.dCutoff := by
  unfold OneEuroFilter.filter
  split <;> simp

lemma mathPI_pos : (0 : ℚ) < mathPI := by norm_num [mathPI]

lemma clampDt_pos (s : OneEuroFilter) (t : ℚ) : 0 < clampDt s t :=
  lt_of_lt_of_le (by norm_num) (le_max_right _ _)

lemma alphaDenomsPos_of (cutoff dt : ℚ) (hc : 0 < cutoff) (hdt : 0 < dt) :
    alphaDenomsPos cutoff dt := by
  have h2c : 0 < 2 * mathPI * cutoff :=
    mul_pos (mul_pos two_pos mathPI_pos) hc
  refine ⟨h2c, hdt, ?_⟩
  have : 0 < (1 / (2 * mathPI * cutoff)) / dt := div_pos (div_pos one_pos h2c) hdt
  linarith

lemma stepSafe_of (s : OneEuroFilter) (x t : ℚ) (hm : 0 < s.minCutoff)
    (hb : 0 ≤ s.beta) (hd : 0 < s.dCutoff) : StepSafe s x t := by
  have hdt : 0 < clampDt s t := clampDt_pos s t
  have hcut : 0 < cutoffOf s x t :=
    add_pos_of_pos_of_nonneg hm (mul_nonneg hb (abs_nonneg _))
  exact ⟨le_max_right _ _, alphaDenomsPos_of _ _ hd hdt,
    alphaDenomsPos_of _ _ hcut hdt⟩

/-- When every fruit is already sliced, the per-frame fruit pass changes
nothing in the engine, emits no events, and every surviving fruit stays
sliced. -/
lemma processFruitsRev_all_sliced (now : ℤ) (dt : ℚ) (l : List Fruit) :
    ∀ e : Engine, (∀ g ∈ l, g.sliced = true) →
      (processFruitsRev now dt e l).1 = e ∧
        (∀ g ∈ (processFruitsRev now dt e l).2.1, g.sliced = true) ∧
        (processFruitsRev now dt e l).2.2 = [] := by
  induction l with
  | nil =>
    intro e _
    rw [processFruitsRev_nil]
    exact ⟨rfl, by simp, rfl⟩
  | cons f rest ih =>
    intro e hall
    have hf : f.sliced = true := hall f (by simp)
    have hrest : ∀ g ∈ rest, g.sliced = true := fun g hg => hall g (by simp [hg])
    have hupd : (f.update e.height dt).sliced = true := by
      rw [update_sliced]; exact hf
    rw [processFruitsRev_cons]
    split
    · rw [if_neg]
      · exact ih e hrest
      · intro hm
        rw [hm.1] at hupd
        exact Bool.false_ne_true hupd
    · rw [if_neg]
      · obtain ⟨h1, h2, h3⟩ := ih e hrest
        refine ⟨h1, ?_, h3⟩
        intro g hg
        rcases List.mem_cons.mp hg with hg | hg
        · rw [hg]; exact hupd
        · exact h2 g hg
      · intro hsc
        rw [hsc.1] at hupd
        exact Bool.false_ne_true hupd

/-- With the speed gate failing (squared displacement at most 4, i.e. speed at
most 2), the per-frame fruit pass never slices: the score is unchanged and
every surviving fruit of an un-sliced population stays un-sliced. -/
lemma processFruitsRev_no_gate (now : ℤ) (dt : ℚ) (l : List Fruit) :
    ∀ e : Engine, moveSpeedSq e.smoothedHand e.bladeTrail ≤ 4 →
      (∀ g ∈ l, g.sliced = false) →
      (∀ g ∈ (processFruitsRev now dt e l).2.1, g.sliced = false) ∧
        (processFruitsRev now dt e l).1.score = e.score ∧
        (processFruitsRev now dt e l).1.smoothedHand = e.smoothedHand ∧
        (processFruitsRev now dt e l).1.bladeTrail = e.bladeTrail := by
  induction l with
  | nil =>
    intro e _ _
    rw [processFruitsRev_nil]
    exact ⟨by simp, rfl, rfl, rfl⟩
  | cons f rest ih =>
    intro e hgate hall
    have hf : f.sliced = false := hall f (by simp)
    have hrest : ∀ g ∈ rest, g.sliced = false := fun g hg => hall g (by simp [hg])
    rw [processFruitsRev_cons]
    split
    · split
      · -- miss branch: the penalty does not touch score, hand or trail
        obtain ⟨hbl, -, -, hbsc⟩ := breakStreak_fields e
        obtain ⟨hbsm, hbtr, -, -⟩ := breakStreak_visual e
        obtain ⟨-, -, -, -, -, hlsc⟩ := loseLife_fields e.breakStreak.1
        obtain ⟨hlsm, hltr, -, -⟩ := loseLife_visual e.breakStreak.1
        have hgate' : moveSpeedSq e.breakStreak.1.loseLife.1.smoothedHand
            e.breakStreak.1.loseLife.1.bladeTrail ≤ 4 := by
          rw [hlsm, hltr, hbsm, hbtr]; exact hgate
        obtain ⟨i1, i2, i3, i4⟩ := ih e.breakStreak.1.loseLife.1 hgate' hrest
        refine ⟨i1, ?_, ?_, ?_⟩
        · rw [i2, hlsc, hbsc]
        · rw [i3, hlsm, hbsm]
        · rw [i4, hltr, hbtr]
      · exact ih e hgate hrest
    · rw [if_neg]
      · obtain ⟨i1, i2, i3, i4⟩ := ih e hgate hrest
        refine ⟨?_, i2, i3, i4⟩
        intro g hg
        rcases List.mem_cons.mp hg with hg | hg
        · rw [hg, update_sliced]; exact hf
        · exact i1 g hg
      · intro hsc
        exact absurd hsc.2.2.2.2 (by linarith)

/-- Frame-level form of `processFruitsRev_no_gate`. -/
lemma updateFruits_no_gate (e : Engine) (now : ℤ) (dt : ℚ)
    (hg : moveSpeedSq e.smoothedHand e.bladeTrail ≤ 4)
    (hf : ∀ g ∈ e.fruits, g.sliced = false) :
    (∀ g ∈ (e.updateFruits now dt).1.fruits, g.sliced = false) ∧
      (e.updateFruits now dt).1.score = e.score := by
  have hrev : ∀ g ∈ e.fruits.reverse, g.sliced = false := by
    intro g hg'
    exact hf g (List.mem_reverse.mp hg')
  obtain ⟨i1, i2, -, -⟩ := processFruitsRev_no_gate now dt e.fruits.reverse e hg hrev
  rw [updateFruits_eq]
  constructor
  · intro g hg'
    simp only at hg'
    exact i1 g (List.mem_reverse.mp hg')
  · exact i2

/-- The components of `updateFruits` in terms of the fruit pass (all
definitional). -/
lemma updateFruits_proj (e : Engine) (now : ℤ) (dt : ℚ) :
    (e.updateFruits now dt).1.score = (processFruitsRev now dt e e.fruits.reverse).1.score ∧
      (e.updateFruits now dt).1.streak = (processFruitsRev now dt e e.fruits.reverse).1.streak ∧
      (e.updateFruits now dt).1.multiplier = (processFruitsRev now dt e e.fruits.reverse).1.multiplier ∧
      (e.updateFruits now dt).1.comboCount = (processFruitsRev now dt e e.fruits.reverse).1.comboCount ∧
      (e.updateFruits now dt).1.lives = (processFruitsRev now dt e e.fruits.reverse).1.lives ∧
      (e.updateFruits now dt).1.gameActive = (processFruitsRev now dt e e.fruits.reverse).1.gameActive ∧
      (e.updateFruits now dt).1.fruits = (processFruitsRev now dt e e.fruits.reverse).2.1.reverse ∧
      (e.updateFruits now dt).2 = (processFruitsRev now dt e e.fruits.reverse).2.2 :=
  ⟨rfl, rfl, rfl, rfl, rfl, rfl, rfl, rfl⟩

/-! ### Claim C1: frame-rate independence of the physics update -/

/-- A concrete target at rest at the origin, used to exhibit the dt
discrepancy. -/
def fruitC1 : Fruit :=
  { x := 0, y := 0, vx := 0, vy := 0, rotation := 0, rotSpeed := 0,
    radius := fruitRadius, pulseTime := 0, type := FruitType.apple,
    sliced := false, active := true, isDoubleFruit := false }

/-- Claim C1 counterexample: for a target under gravity alone, two physics
steps with `dt = 1` do NOT produce the same position as one step with
`dt = 2` — already for a target at rest the vertical positions differ by the
full gravity constant `0.18` (and the gap grows linearly with the step
count), far outside floating-point tolerance. -/
theorem C1_counterexample :
    ((fruitC1.update 600 1).update 600 1).y ≠ (fruitC1.update 600 2).y := by
  simp only [fruitC1, Fruit.update, gravity]
  norm_num

/-- Claim C1, amended: the integrator updates position with the pre-step
velocity and only then applies gravity to the velocity, so doubling `dt`
reproduces the velocity and the horizontal position of two unit steps
exactly, while the vertical position of the two unit steps exceeds the
doubled step by exactly `gravity` (per pair of steps). -/
theorem C1_double_dt_vs_two_steps (f : Fruit) (h : ℚ) :
    ((f.update h 1).update h 1).x = (f.update h 2).x ∧
      ((f.update h 1).update h 1).vx = (f.update h 2).vx ∧
      ((f.update h 1).update h 1).vy = (f.update h 2).vy ∧
      ((f.update h 1).update h 1).y = (f.update h 2).y + gravity := by
  unfold Fruit.update gravity
  refine ⟨?_, ?_, ?_, ?_⟩ <;> simp <;> ring

/-! ### Claim C5: lives bounded in `[0, maxLives]` -/

/-- Claim C5: in every session state reachable from session start via the
engine's operations, `lives` stays within `[0, maxLives]` — no miss can drive
it negative (the miss penalty only runs while the session is active, and an
active session has at least one life) and a heart slice never exceeds
`maxLives`. -/
theorem C5_lives_in_range (e : Engine) (h : Reach e) :
    0 ≤ e.lives ∧ e.lives ≤ e.maxLives := by
  obtain ⟨h1, h2, -, -, -, -⟩ := reach_inv e h
  exact ⟨h1, h2⟩

/-- Witness for C5 at the concrete post-`startGame` state. -/
theorem C5_witness :
    0 ≤ Engine.init.startGame.1.lives ∧
      Engine.init.startGame.1.lives ≤ Engine.init.startGame.1.maxLives :=
  C5_lives_in_range Engine.init.startGame.1 (Reach.start Engine.init Reach.init)

/-! ### Claim C8: life-bonus (heart) slice -/

/-- Claim C8: slicing a heart at `lives == maxLives` leaves lives unchanged
and adds exactly `5 * multiplier` to the score; below `maxLives` it
increments lives by exactly 1 and leaves the score unchanged; in both cases
streak, multiplier and comboCount are untouched. -/
theorem C8_heart_slice (e : Engine) (now : ℤ) (f : Fruit)
    (hf : f.type = FruitType.heart) :
    (e.lives = e.maxLives →
      (e.handleSlice now f).1.lives = e.lives ∧
        (e.handleSlice now f).1.score = e.score + 5 * e.multiplier) ∧
      (e.lives < e.maxLives →
        (e.handleSlice now f).1.lives = e.lives + 1 ∧
          (e.handleSlice now f).1.score = e.score) ∧
      (e.handleSlice now f).1.streak = e.streak ∧
      (e.handleSlice now f).1.multiplier = e.multiplier ∧
      (e.handleSlice now f).1.comboCount = e.comboCount := by
  rw [handleSlice_heart e now f hf]
  split
  · rename_i hlt
    exact ⟨fun heq => absurd hlt (by omega), fun _ => ⟨rfl, rfl⟩, rfl, rfl, rfl⟩
  · rename_i hge
    exact ⟨fun _ => ⟨rfl, rfl⟩, fun hlt => absurd hlt hge, rfl, rfl, rfl⟩

/-- A concrete heart target. -/
def heartW : Fruit :=
  { x := 50, y := 50, vx := 0, vy := 0, rotation := 0, rotSpeed := 0,
    radius := fruitRadius, pulseTime := 0, type := FruitType.heart,
    sliced := false, active := true, isDoubleFruit := false }

/-- Witness for C8 at a concrete heart slice on the freshly constructed
engine (`lives = 3 < maxLives = 5`, so the heal branch fires). -/
theorem C8_witness :
    heartW.type = FruitType.heart ∧
      Engine.init.lives < Engine.init.maxLives ∧
      ((Engine.init.lives = Engine.init.maxLives →
        (Engine.init.handleSlice 0 heartW).1.lives = Engine.init.lives ∧
          (Engine.init.handleSlice 0 heartW).1.score =
            Engine.init.score + 5 * Engine.init.multiplier) ∧
      (Engine.init.lives < Engine.init.maxLives →
        (Engine.init.handleSlice 0 heartW).1.lives = Engine.init.lives + 1 ∧
          (Engine.init.handleSlice 0 heartW).1.score = Engine.init.score) ∧
      (Engine.init.handleSlice 0 heartW).1.streak = Engine.init.streak ∧
      (Engine.init.handleSlice 0 heartW).1.multiplier = Engine.init.multiplier ∧
      (Engine.init.handleSlice 0 heartW).1.comboCount = Engine.init.comboCount) :=
  ⟨rfl, by decide, C8_heart_slice Engine.init 0 heartW rfl⟩

/-! ### Claim C9: the signal filter is total and NaN-free -/

/-- Claim C9: for every sequence of calls to the One Euro filter with finite
rational inputs — including repeated, zero or negative timestamp deltas — and
any parameters with `minCutoff > 0`, `beta ≥ 0`, `dCutoff > 0` (the engine
constructs `(1.5, 0.01, 1.0)`), every division performed by `filter` has a
positive denominator: the time delta is clamped to `≥ 0.001` before any
division, and both adaptive low-pass coefficients have positive denominators.
Over `ℚ`, and equally over IEEE floats with these guards, this is exactly the
"never throws, never NaN" guarantee. -/
theorem C9_filter_safe (s : OneEuroFilter) (hm : 0 < s.minCutoff)
    (hb : 0 ≤ s.beta) (hd : 0 < s.dCutoff) (inputs : List (ℚ × ℚ)) :
    RunSafe s inputs := by
  induction inputs generalizing s with
  | nil => trivial
  | cons p rest ih =>
    obtain ⟨x, t⟩ := p
    refine ⟨stepSafe_of s x t hm hb hd, ?_⟩
    obtain ⟨p1, p2, p3⟩ := filter_params s x t
    exact ih (s.filter x t).1 (p1 ▸ hm) (p2 ▸ hb) (p3 ▸ hd)

/-- Witness for C9: the engine's own x-filter parameters `(1.5, 0.01, 1.0)`
on a run with a backwards and a repeated timestamp. -/
theorem C9_witness :
    0 < (OneEuroFilter.mk0 (3 / 2) (1 / 100) 1).minCutoff ∧
      RunSafe (OneEuroFilter.mk0 (3 / 2) (1 / 100) 1)
        [(5, 100), (7, 50), (9, 50)] :=
  ⟨by norm_num [OneEuroFilter.mk0],
   C9_filter_safe _ (by norm_num [OneEuroFilter.mk0])
     (by norm_num [OneEuroFilter.mk0]) (by norm_num [OneEuroFilter.mk0]) _⟩

/-! ### Claim C10: zero streak forces neutral multiplier and combo -/

/-- Claim C10: in every reachable session state, `streak == 0` implies
`multiplier == 1` and `comboCount == 0`; consequently `breakStreak` on a
zero-streak state returns the state unchanged and emits no streak
notification. -/
theorem C10_zero_streak (e : Engine) (h : Reach e) (h0 : e.streak = 0) :
    e.multiplier = 1 ∧ e.comboCount = 0 ∧ e.breakStreak = (e, []) := by
  obtain ⟨-, -, -, -, hz, -⟩ := reach_inv e h
  obtain ⟨hm, hc⟩ := hz h0
  refine ⟨hm, hc, ?_⟩
  rw [breakStreak_eq, if_neg (by omega)]

/-- Witness for C10 at the concrete constructor state. -/
theorem C10_witness :
    Engine.init.streak = 0 ∧
      (Engine.init.multiplier = 1 ∧ Engine.init.comboCount = 0 ∧
        Engine.init.breakStreak = (Engine.init, [])) :=
  ⟨rfl, C10_zero_streak Engine.init Reach.init rfl⟩

/-! ### Claim C3: miss of a neutral-good target -/

/-- Claim C3: when a neutral-good target exits the field un-sliced during an
active session frame (here: the session's single target goes inactive
un-sliced this frame), the resulting state has `streak = 0`,
`multiplier = 1`, `comboCount = 0` regardless of their prior values, and
`lives` is decremented by exactly 1. -/
theorem C3_miss_penalty (e : Engine) (h : Reach e) (hA : e.gameActive = true)
    (f : Fruit) (hf : e.fruits = [f]) (now : ℤ) (dt : ℚ)
    (hinact : (f.update e.height dt).active = false)
    (hsl : f.sliced = false)
    (hb : f.type ≠ FruitType.bomb) (hh : f.type ≠ FruitType.heart) :
    (e.updateFruits now dt).1.streak = 0 ∧
      (e.updateFruits now dt).1.multiplier = 1 ∧
      (e.updateFruits now dt).1.comboCount = 0 ∧
      (e.updateFruits now dt).1.lives = e.lives - 1 := by
  have hInv := reach_inv e h
  have hmiss : missCond e (f.update e.height dt) :=
    ⟨by rw [update_sliced]; exact hsl, by rw [update_type]; exact hb,
     by rw [update_type]; exact hh, hA⟩
  have hrev : e.fruits.reverse = [f] := by rw [hf]; simp
  have hrw : processFruitsRev now dt e e.fruits.reverse =
      (e.breakStreak.1.loseLife.1, [],
       e.breakStreak.2 ++ e.breakStreak.1.loseLife.2 ++ []) := by
    rw [hrev, processFruitsRev_cons, if_pos hinact, if_pos hmiss,
      processFruitsRev_nil]
  obtain ⟨-, pst, pmu, pcm, plv, -, -, -⟩ := updateFruits_proj e now dt
  obtain ⟨hbs, hbm, hbc⟩ := breakStreak_resets e hInv
  obtain ⟨hll, -, hls, hlm, hlc, -⟩ := loseLife_fields e.breakStreak.1
  obtain ⟨hbl, -, -, -⟩ := breakStreak_fields e
  refine ⟨?_, ?_, ?_, ?_⟩
  · rw [pst, hrw]; rw [show (e.breakStreak.1.loseLife.1, ([] : List Fruit),
      e.breakStreak.2 ++ e.breakStreak.1.loseLife.2 ++ ([] : List GEvent)).1 =
      e.breakStreak.1.loseLife.1 from rfl, hls, hbs]
  · rw [pmu, hrw]; rw [show (e.breakStreak.1.loseLife.1, ([] : List Fruit),
      e.breakStreak.2 ++ e.breakStreak.1.loseLife.2 ++ ([] : List GEvent)).1 =
      e.breakStreak.1.loseLife.1 from rfl, hlm, hbm]
  · rw [pcm, hrw]; rw [show (e.breakStreak.1.loseLife.1, ([] : List Fruit),
      e.breakStreak.2 ++ e.breakStreak.1.loseLife.2 ++ ([] : List GEvent)).1 =
      e.breakStreak.1.loseLife.1 from rfl, hlc, hbc]
  · rw [plv, hrw]; rw [show (e.breakStreak.1.loseLife.1, ([] : List Fruit),
      e.breakStreak.2 ++ e.breakStreak.1.loseLife.2 ++ ([] : List GEvent)).1 =
      e.breakStreak.1.loseLife.1 from rfl, hll, hbl]

/-- A concrete neutral-good target about to exit the bottom of a 600-high
field. -/
def fruitMissW : Fruit :=
  { x := 100, y := 700, vx := 0, vy := 5, rotation := 0, rotSpeed := 0,
    radius := fruitRadius, pulseTime := 0, type := FruitType.apple,
    sliced := false, active := true, isDoubleFruit := false }

/-- A concrete session: resized to 800×600, started, with `fruitMissW` as the
single active target. -/
def engineC3W : Engine :=
  { ({ Engine.init with width := 800, height := 600 }).startGame.1 with
    fruits := [fruitMissW] }

lemma reachC3W : Reach engineC3W :=
  Reach.setFruits _ _ (Reach.start _ (Reach.resize _ 800 600 Reach.init))

/-- Witness for C3 at the concrete missed-apple frame. -/
theorem C3_witness :
    engineC3W.gameActive = true ∧
      ((engineC3W.updateFruits 0 1).1.streak = 0 ∧
        (engineC3W.updateFruits 0 1).1.multiplier = 1 ∧
        (engineC3W.updateFruits 0 1).1.comboCount = 0 ∧
        (engineC3W.updateFruits 0 1).1.lives = engineC3W.lives - 1) :=
  ⟨rfl,
   C3_miss_penalty engineC3W reachC3W rfl fruitMissW rfl 0 1
     (by norm_num [engineC3W, Engine.startGame, Engine.init, fruitMissW,
        Fruit.update, gravity])
     rfl (by decide) (by decide)⟩

/-! ### Claim C4: combo tiering -/

/-- A neutral-good (non-bomb, non-heart), non-paired target. -/
def GoodPlain (f : Fruit) : Prop :=
  f.type ≠ FruitType.bomb ∧ f.type ≠ FruitType.heart ∧ f.isDoubleFruit = false

instance (f : Fruit) : Decidable (GoodPlain f) := by
  unfold GoodPlain; infer_instance

/-- The engine state after a sequence of timed slices. -/
def afterSlices (e : Engine) : List (ℤ × Fruit) → Engine
  | [] => e
  | (n, f) :: rest => afterSlices (e.handleSlice n f).1 rest

/-- Claim C4: from `streak = 0`, `comboCount = 0` (hence `multiplier = 1`),
four neutral-good non-paired slices, each within the combo window of the
previous one, produce the comboCount sequence 1, 2, 3, 4, score deltas
`1, 1+5, 1+15, 1+30`, a multiplier that stays 1, and a total of 54 points. -/
theorem C4_combo_tiering (e : Engine)
    (h0 : e.streak = 0) (h1 : e.comboCount = 0) (h2 : e.multiplier = 1)
    (f1 f2 f3 f4 : Fruit)
    (g1 : GoodPlain f1) (g2 : GoodPlain f2) (g3 : GoodPlain f3)
    (g4 : GoodPlain f4)
    (n1 n2 n3 n4 : ℤ)
    (h12 : n2 - n1 < comboWindowMs) (h23 : n3 - n2 < comboWindowMs)
    (h34 : n4 - n3 < comboWindowMs) :
    (afterSlices e [(n1, f1)]).comboCount = 1 ∧
      (afterSlices e [(n1, f1), (n2, f2)]).comboCount = 2 ∧
      (afterSlices e [(n1, f1), (n2, f2), (n3, f3)]).comboCount = 3 ∧
      (afterSlices e [(n1, f1), (n2, f2), (n3, f3), (n4, f4)]).comboCount = 4 ∧
      (afterSlices e [(n1, f1)]).score = e.score + 1 ∧
      (afterSlices e [(n1, f1), (n2, f2)]).score =
        (afterSlices e [(n1, f1)]).score + 6 ∧
      (afterSlices e [(n1, f1), (n2, f2), (n3, f3)]).score =
        (afterSlices e [(n1, f1), (n2, f2)]).score + 16 ∧
      (afterSlices e [(n1, f1), (n2, f2), (n3, f3), (n4, f4)]).score =
        (afterSlices e [(n1, f1), (n2, f2), (n3, f3)]).score + 31 ∧
      (afterSlices e [(n1, f1), (n2, f2), (n3, f3), (n4, f4)]).score =
        e.score + 54 ∧
      (afterSlices e [(n1, f1)]).multiplier = 1 ∧
      (afterSlices e [(n1, f1), (n2, f2)]).multiplier = 1 ∧
      (afterSlices e [(n1, f1), (n2, f2), (n3, f3)]).multiplier = 1 ∧
      (afterSlices e [(n1, f1), (n2, f2), (n3, f3), (n4, f4)]).multiplier = 1 := by
  obtain ⟨b1, q1, d1⟩ := g1
  obtain ⟨b2, q2, d2⟩ := g2
  obtain ⟨b3, q3, d3⟩ := g3
  obtain ⟨b4, q4, d4⟩ := g4
  obtain ⟨c1, t1, s1, m1, sc1⟩ := handleSlice_regular_fields e n1 f1 b1 q1
  rw [h1, newCombo_zero] at c1
  rw [h0] at s1
  norm_num at s1
  rw [h0] at m1
  norm_num [calculateMultiplier] at m1
  rw [h1, newCombo_zero, h2, d1] at sc1
  norm_num [slicePoints, comboBonusDouble, comboBonusTriple, comboBonusQuad] at sc1
  obtain ⟨c2, t2, s2, m2, sc2⟩ :=
    handleSlice_regular_fields (e.handleSlice n1 f1).1 n2 f2 b2 q2
  have w2 : newCombo 1 n1 n2 = 2 := by
    unfold newCombo; rw [if_pos h12]; norm_num
  rw [c1, t1, w2] at c2
  rw [s1] at s2
  norm_num at s2
  rw [s1] at m2
  norm_num [calculateMultiplier] at m2
  rw [c1, t1, w2, m1, d2] at sc2
  norm_num [slicePoints, comboBonusDouble, comboBonusTriple, comboBonusQuad] at sc2
  obtain ⟨c3, t3, s3, m3, sc3⟩ :=
    handleSlice_regular_fields ((e.handleSlice n1 f1).1.handleSlice n2 f2).1 n3 f3 b3 q3
  have w3 : newCombo 2 n2 n3 = 3 := by
    unfold newCombo; rw [if_pos h23]; norm_num
  rw [c2, t2, w3] at c3
  rw [s2] at s3
  norm_num at s3
  rw [s2] at m3
  norm_num [calculateMultiplier] at m3
  rw [c2, t2, w3, m2, d3] at sc3
  norm_num [slicePoints, comboBonusDouble, comboBonusTriple, comboBonusQuad] at sc3
  obtain ⟨c4, t4, s4, m4, sc4⟩ :=
    handleSlice_regular_fields (((e.handleSlice n1 f1).1.handleSlice n2 f2).1.handleSlice n3 f3).1 n4 f4 b4 q4
  have w4 : newCombo 3 n3 n4 = 4 := by
    unfold newCombo; rw [if_pos h34]; norm_num
  rw [c3, t3, w4] at c4
  rw [s3] at s4
  norm_num at s4
  rw [s3] at m4
  norm_num [calculateMultiplier] at m4
  rw [c3, t3, w4, m3, d4] at sc4
  norm_num [slicePoints, comboBonusDouble, comboBonusTriple, comboBonusQuad] at sc4
  have total : ((((e.handleSlice n1 f1).1.handleSlice n2 f2).1.handleSlice
      n3 f3).1.handleSlice n4 f4).1.score = e.score + 54 := by omega
  exact ⟨c1, c2, c3, c4, sc1, sc2, sc3, sc4, total, m1, m2, m3, m4⟩

/-- A concrete neutral-good, non-paired target for the combo witness. -/
def fruitGoodW : Fruit :=
  { x := 200, y := 200, vx := 0, vy := 0, rotation := 0, rotSpeed := 0,
    radius := fruitRadius, pulseTime := 0, type := FruitType.orange,
    sliced := false, active := true, isDoubleFruit := false }

/-- Witness for C4: four slices of a concrete orange at 1000, 1100, 1200,
1300 ms on the freshly constructed engine. -/
theorem C4_witness :
    GoodPlain fruitGoodW ∧
      (afterSlices Engine.init
        [(1000, fruitGoodW), (1100, fruitGoodW), (1200, fruitGoodW),
         (1300, fruitGoodW)]).score = Engine.init.score + 54 :=
  ⟨by decide,
   (C4_combo_tiering Engine.init rfl rfl rfl fruitGoodW fruitGoodW fruitGoodW
      fruitGoodW (by decide) (by decide) (by decide) (by decide)
      1000 1100 1200 1300 (by decide) (by decide)
      (by decide)).2.2.2.2.2.2.2.2.1⟩

/-! ### Claim C6: no double slice -/

/-- Claim C6: once a target's `sliced` flag is true it can never be detected
as a hit again (`sliceCond` demands `sliced = false`), the flag survives the
physics update and `handleSlice` unchanged (no operation ever resets it), and
a frame over fully-sliced targets changes no engine state, emits no events,
and leaves every surviving target sliced. -/
theorem C6_no_double_slice (e : Engine) (f : Fruit) (now : ℤ) (hgt dt : ℚ)
    (hs : f.sliced = true) :
    ¬ sliceCond e f ∧ (f.update hgt dt).sliced = true ∧
      ((e.handleSlice now f).2.1).sliced = true ∧
      ((∀ g ∈ e.fruits, g.sliced = true) →
        (∀ g ∈ (e.updateFruits now dt).1.fruits, g.sliced = true) ∧
          (e.updateFruits now dt).1.score = e.score ∧
          (e.updateFruits now dt).2 = []) := by
  refine ⟨?_, ?_, ?_, ?_⟩
  · intro hsc
    rw [hsc.1] at hs
    exact Bool.false_ne_true hs
  · rw [update_sliced]; exact hs
  · by_cases hb : f.type = FruitType.bomb
    · rw [handleSlice_bomb e now f hb]
    · by_cases hh : f.type = FruitType.heart
      · rw [handleSlice_heart e now f hh]
        split <;> rfl
      · rw [handleSlice_regular e now f hb hh]
  · intro hall
    have hrev : ∀ g ∈ e.fruits.reverse, g.sliced = true :=
      fun g hg => hall g (List.mem_reverse.mp hg)
    obtain ⟨p1, p2, p3⟩ := processFruitsRev_all_sliced now dt e.fruits.reverse e hrev
    obtain ⟨usc, -, -, -, -, -, ufr, uev⟩ := updateFruits_proj e now dt
    refine ⟨?_, ?_, ?_⟩
    · intro g hg
      rw [ufr] at hg
      exact p2 g (List.mem_reverse.mp hg)
    · rw [usc, p1]
    · rw [uev, p3]

/-- A concrete already-sliced target under the pointer. -/
def fruitSlicedW : Fruit :=
  { x := 100, y := 100, vx := 0, vy := 0, rotation := 0, rotSpeed := 0,
    radius := fruitRadius, pulseTime := 0, type := FruitType.apple,
    sliced := true, active := true, isDoubleFruit := false }

/-- A concrete active session whose only target is already sliced and whose
pointer rests right on it, moving fast. -/
def engineC6W : Engine :=
  { Engine.init with
    width := 800,
    height := 600,
    gameActive := true,
    rawHand := { x := 100, y := 100, visible := true },
    smoothedHand := { x := 100, y := 100 },
    bladeTrail := [{ x := 90, y := 100, time := 0 }, { x := 100, y := 100, time := 1 }],
    fruits := [fruitSlicedW] }

/-- Witness for C6 at the concrete sliced target. -/
theorem C6_witness :
    fruitSlicedW.sliced = true ∧
      (¬ sliceCond engineC6W fruitSlicedW ∧
        (fruitSlicedW.update 600 1).sliced = true ∧
        ((engineC6W.handleSlice 0 fruitSlicedW).2.1).sliced = true ∧
        ((∀ g ∈ engineC6W.fruits, g.sliced = true) →
          (∀ g ∈ (engineC6W.updateFruits 0 1).1.fruits, g.sliced = true) ∧
            (engineC6W.updateFruits 0 1).1.score = engineC6W.score ∧
            (engineC6W.updateFruits 0 1).2 = [])) :=
  ⟨rfl, C6_no_double_slice engineC6W fruitSlicedW 0 600 1 rfl⟩

/-! ### Claim C7: the speed gate -/

/-- One no-gate frame: installing a pointer/trail whose displacement is below
the gate and running the fruit pass slices nothing and keeps the score. -/
lemma frame_no_gate (e : Engine) (p : Point) (hd : HandData)
    (tr : List BladePoint) (now : ℤ) (dt : ℚ)
    (hg : moveSpeedSq p tr ≤ 4) (hfr : ∀ g ∈ e.fruits, g.sliced = false) :
    (∀ g ∈ (({ e with smoothedHand := p, rawHand := hd, bladeTrail := tr } : Engine).updateFruits now dt).1.fruits, g.sliced = false) ∧
      (({ e with smoothedHand := p, rawHand := hd, bladeTrail := tr } : Engine).updateFruits now dt).1.score = e.score := by
  have h1 : moveSpeedSq ({ e with smoothedHand := p, rawHand := hd, bladeTrail := tr } : Engine).smoothedHand ({ e with smoothedHand := p, rawHand := hd, bladeTrail := tr } : Engine).bladeTrail ≤ 4 := hg
  have h2 : ∀ g ∈ ({ e with smoothedHand := p, rawHand := hd, bladeTrail := tr } : Engine).fruits, g.sliced = false := hfr
  exact updateFruits_no_gate _ now dt h1 h2

/-- Claim C7: a pointer whose displacement from the previous trail point
stays at or below the speed threshold (squared: `moveSpeedSq ≤ 4`, i.e.
speed ≤ 2) on every frame never slices any target, over any number of
frames: every target stays un-sliced and the score never changes. -/
theorem C7_stationary_never_slices (e : Engine)
    (frames : List (Point × HandData × List BladePoint × ℤ × ℚ))
    (hgate : ∀ fr ∈ frames, moveSpeedSq fr.1 fr.2.2.1 ≤ 4)
    (hfr : ∀ g ∈ e.fruits, g.sliced = false) :
    (∀ g ∈ (runFrames e frames).fruits, g.sliced = false) ∧
      (runFrames e frames).score = e.score := by
  induction frames generalizing e with
  | nil => exact ⟨hfr, rfl⟩
  | cons fr rest ih =>
    obtain ⟨p, hd, tr, now, dt⟩ := fr
    have hg0 : moveSpeedSq p tr ≤ 4 :=
      hgate (p, hd, tr, now, dt) (List.mem_cons_self _ _)
    obtain ⟨u1, u2⟩ := frame_no_gate e p hd tr now dt hg0 hfr
    have hrest : ∀ fr' ∈ rest, moveSpeedSq fr'.1 fr'.2.2.1 ≤ 4 :=
      fun fr' h' => hgate fr' (List.mem_cons_of_mem _ h')
    obtain ⟨r1, r2⟩ := ih
      (({ e with smoothedHand := p, rawHand := hd, bladeTrail := tr } : Engine).updateFruits now dt).1 hrest u1
    exact ⟨r1, r2.trans u2⟩

/-- A concrete un-sliced target resting under the pointer. -/
def fruitRestW : Fruit :=
  { x := 100, y := 100, vx := 0, vy := -5, rotation := 0, rotSpeed := 0,
    radius := fruitRadius, pulseTime := 0, type := FruitType.apple,
    sliced := false, active := true, isDoubleFruit := false }

/-- A session whose pointer rests exactly on the target. -/
def engineC7W : Engine :=
  { Engine.init with
    width := 800,
    height := 600,
    gameActive := true,
    rawHand := { x := 100, y := 100, visible := true },
    smoothedHand := { x := 100, y := 100 },
    bladeTrail := [{ x := 100, y := 100, time := 0 }, { x := 100, y := 100, time := 1 }],
    fruits := [fruitRestW] }

/-- Two frames with the pointer frozen at the target's position. -/
def framesC7W : List (Point × HandData × List BladePoint × ℤ × ℚ) :=
  [({ x := 100, y := 100 }, { x := 100, y := 100, visible := true },
    [{ x := 100, y := 100, time := 0 }, { x := 100, y := 100, time := 1 }], 16, 1),
   ({ x := 100, y := 100 }, { x := 100, y := 100, visible := true },
    [{ x := 100, y := 100, time := 1 }, { x := 100, y := 100, time := 2 }], 33, 1)]

lemma gateC7W : ∀ fr ∈ framesC7W, moveSpeedSq fr.1 fr.2.2.1 ≤ 4 := by
  intro fr hfr
  simp only [framesC7W, List.mem_cons, List.not_mem_nil, or_false] at hfr
  rcases hfr with h | h <;>
    rw [h] <;> norm_num [moveSpeedSq, prevPoint, List.length, List.get?]

lemma fruitsC7W : ∀ g ∈ engineC7W.fruits, g.sliced = false := by
  intro g hg
  simp only [engineC7W, List.mem_singleton] at hg
  rw [hg]
  rfl

/-! ### Claim C2: hazard slice and same-frame scoring -/

/-- A concrete neutral-good target directly under the pointer. -/
def appleC2 : Fruit :=
  { x := 100, y := 100, vx := 0, vy := 0, rotation := 0, rotSpeed := 0,
    radius := fruitRadius, pulseTime := 0, type := FruitType.apple,
    sliced := false, active := true, isDoubleFruit := false }

/-- A concrete hazard (bomb) target at the same position. -/
def bombC2 : Fruit :=
  { x := 100, y := 100, vx := 0, vy := 0, rotation := 0, rotSpeed := 0,
    radius := fruitRadius, pulseTime := 0, type := FruitType.bomb,
    sliced := false, active := true, isDoubleFruit := false }

/-- A started session with a fast, visible pointer resting on both targets.
The bomb sits at the end of the array, so the frame loop (which iterates from
the last index down) processes it FIRST. -/
def engineC2 : Engine :=
  { Engine.init with
    width := 800,
    height := 600,
    gameActive := true,
    rawHand := { x := 100, y := 100, visible := true },
    smoothedHand := { x := 100, y := 100 },
    bladeTrail := [{ x := 90, y := 100, time := 0 }, { x := 100, y := 100, time := 1 }],
    fruits := [appleC2, bombC2] }

/-- Claim C2 failing frame: in this state the bomb is sliced first, the
session ends (`gameActive = false`) with the game-over callback reporting the
pre-slice score 0 — but the apple processed later in the SAME frame is still
sliced and scored (+1), because the collision branch of `updateFruits` does
not test `gameActive`.  So "no further scoring ever occurs after that slice"
fails on the code. -/
lemma apple_ne_bomb : FruitType.apple ≠ FruitType.bomb := by decide

lemma apple_ne_heart : FruitType.apple ≠ FruitType.heart := by decide

theorem C2_scoring_after_bomb :
    (engineC2.updateFruits 10000 1).1.gameActive = false ∧
      (engineC2.updateFruits 10000 1).1.score = 1 ∧
      (engineC2.updateFruits 10000 1).2 =
        [GEvent.gameOverEv 0, GEvent.streakUpdate 1 1, GEvent.scoreUpdate 1,
         GEvent.splashEv] := by
  have hrev : engineC2.fruits.reverse = [bombC2, appleC2] := rfl
  obtain ⟨psc, -, -, -, -, pga, -, pev⟩ := updateFruits_proj engineC2 10000 1
  refine ⟨?_, ?_, ?_⟩ <;>
    first
      | rw [pga, hrev] | rw [psc, hrev] | rw [pev, hrev]
  all_goals
    norm_num [processFruitsRev_cons, processFruitsRev_nil, missCond, sliceCond,
      hitDetected, distLtSq, prevPoint, moveSpeedSq, distToSegmentSq,
      Fruit.update, Engine.handleSlice, Engine.breakStreak, Engine.loseLife,
      appleC2, bombC2, engineC2, Engine.init, gravity, hitboxPadding,
      fruitRadius, comboWindowMs, calculateMultiplier, List.length, List.get?,
      apple_ne_bomb, apple_ne_heart]

/-- Witness for C7: two stationary frames over the resting target produce no
slice and no score change. -/
theorem C7_witness :
    (∀ fr ∈ framesC7W, moveSpeedSq fr.1 fr.2.2.1 ≤ 4) ∧
      ((∀ g ∈ (runFrames engineC7W framesC7W).fruits, g.sliced = false) ∧
        (runFrames engineC7W framesC7W).score = engineC7W.score) :=
  ⟨gateC7W, C7_stationary_never_slices engineC7W framesC7W gateC7W fruitsC7W⟩

end Kitefew
